import Mathlib

/-!
Shallow embedding of the pixnet_blog_crawler repository (src/dom.py, src/model.py,
src/page_crawler.py, src/post_crawler.py, src/store.py, src/main.py).

Python strings are modelled as `List Char` (the type `Str` below); Python `None`
becomes `Option`; Python exceptions that a claim depends on become `Except`.
Each definition carries a comment pointing at the source function it embeds.
-/

/-- Python strings are modelled as lists of characters. -/
abbrev Str : Type := List Char

/-- Model of Python truthiness for an optional string (`None` and `""` are falsy). -/
def truthyOpt (s : Option Str) : Bool :=
  match s with
  | none => false
  | some v => v ≠ []

/-- Model of Python `a or b` for two strings (`""` is falsy). -/
def pyOrStr (a b : Str) : Str :=
  if a = [] then b else a

/-- Model of Python `a or b` where `a` is an optional string (`None`/`""` falsy). -/
def pyOrOpt (a : Option Str) (b : Str) : Str :=
  match a with
  | none => b
  | some v => if v = [] then b else v

/-- Model of Python `str.strip()`: drop whitespace from both ends. -/
def pyStrip (s : Str) : Str :=
  ((s.dropWhile Char.isWhitespace).reverse.dropWhile Char.isWhitespace).reverse

/-- Auxiliary scan for substring containment. -/
def pyInAux (sub : Str) : Str → Bool
  | [] => sub == []
  | c :: rest => List.isPrefixOf sub (c :: rest) || pyInAux sub rest

/-- Model of Python `sub in s` (substring containment). -/
def pyIn (sub s : Str) : Bool :=
  pyInAux sub s

/-- Model of Python `s.endswith(e)`. -/
def pyEndsWith (s e : Str) : Bool :=
  s.drop (s.length - e.length) == e

/-- Model of Python `str.lower()` (ASCII case folding, which covers the
file-extension strings this program manipulates). -/
def pyLower (s : Str) : Str :=
  s.map Char.toLower

/-- Part of `s` after the last occurrence of separator `c`; the whole string when
`c` does not occur.  This is Python `s.rsplit(c, 1)[-1]` (and `s.split(c)[-1]`). -/
def afterLastSep (c : Char) (s : Str) : Str :=
  ((s.reverse.takeWhile (· ≠ c))).reverse

/-- Part of `s` before the last occurrence of separator `c`; the whole string when
`c` does not occur.  This is Python `s.rsplit(c, 1)[0]`. -/
def beforeLastSep (c : Char) (s : Str) : Str :=
  if s.contains c then (s.reverse.dropWhile (· ≠ c)).reverse.dropLast else s

/-- Embedding of `Post.ensure_ext` (src/model.py lines 139-150):
append the filename extension taken from `src`'s final path segment (query and
fragment stripped) when `name` does not already end with it. -/
def ensure_ext (name : Str) (src : Option Str) : Str :=
  match src with
  | none => name
  | some s =>
    if s = [] then name
    else if ¬ (afterLastSep '/' s).contains '.' then name
    else if ¬ (beforeLastSep '#' (beforeLastSep '?' (afterLastSep '/' s))).contains '.' then name
    else if pyEndsWith (pyLower name)
        (pyLower ('.' :: afterLastSep '.' (beforeLastSep '#' (beforeLastSep '?' (afterLastSep '/' s))))) then
      name
    else name ++ '.' :: afterLastSep '.' (beforeLastSep '#' (beforeLastSep '?' (afterLastSep '/' s)))

/-- Extension that `ensure_ext` reconstructs from `src`'s final path segment, or
`none` when one of the early returns of `ensure_ext` fires. -/
def extFromSrc (src : Option Str) : Option Str :=
  match src with
  | none => none
  | some s =>
    if s = [] then none
    else if ¬ (afterLastSep '/' s).contains '.' then none
    else if ¬ (beforeLastSep '#' (beforeLastSep '?' (afterLastSep '/' s))).contains '.' then none
    else some ('.' :: afterLastSep '.' (beforeLastSep '#' (beforeLastSep '?' (afterLastSep '/' s))))

theorem pyEndsWith_append (x e : Str) : pyEndsWith (x ++ e) e = true := by
  simp only [pyEndsWith, List.length_append]
  have h : x.length + e.length - e.length = x.length := by omega
  rw [h, List.drop_left]
  simp

theorem pyLower_append (a b : Str) : pyLower (a ++ b) = pyLower a ++ pyLower b := by
  simp [pyLower]

theorem ensure_ext_idem (name : Str) (src : Option Str) :
    ensure_ext (ensure_ext name src) src = ensure_ext name src := by
  cases src with
  | none => rfl
  | some s =>
    simp only [ensure_ext]
    split_ifs with h1 h2 h3 h4 h5 <;> try rfl
    all_goals
      exfalso
      rw [pyLower_append] at h5
      exact h5 (pyEndsWith_append _ _)

/-! Datetime model (src/dom.py).  Python `datetime` values are modelled by
`PyDateTime`; the `datetime(...)` constructor, which raises `ValueError` on an
invalid civil date, is modelled by the guarded constructor `mkValid`. -/

/-- Numeric value of a decimal digit character. -/
def digitVal (c : Char) : Nat := c.toNat - '0'.toNat

/-- Decimal value of a digit string. -/
def digitsToNat (s : Str) : Nat := s.foldl (fun a c => a * 10 + digitVal c) 0

/-- Maximal digit run at the front of `s` (models a greedy regex `\d+` or `\d*`). -/
def takeDigits (s : Str) : Str × Str := (s.takeWhile Char.isDigit, s.dropWhile Char.isDigit)

/-- Read exactly `n` digits from the front of `s` (models `\d{n}` in an anchored
position); returns the value and the rest. -/
def takeExact (n : Nat) (s : Str) : Option (Nat × Str) :=
  if (s.take n).length = n ∧ (s.take n).all Char.isDigit then
    some (digitsToNat (s.take n), s.drop n)
  else none

/-- Leap-year test of the Gregorian calendar. -/
def isLeapYear (y : Nat) : Bool := (y % 4 == 0 && y % 100 != 0) || y % 400 == 0

/-- Number of days in a month. -/
def daysInMonth (y m : Nat) : Nat :=
  if m = 2 then (if isLeapYear y then 29 else 28)
  else if m = 4 ∨ m = 6 ∨ m = 9 ∨ m = 11 then 30
  else 31

/-- Validity of civil date-time fields, as enforced by Python's `datetime`
constructor (`MINYEAR = 1`, `MAXYEAR = 9999`). -/
def validCivil (y mo d hh mi ss : Nat) : Bool :=
  1 ≤ y && y ≤ 9999 && 1 ≤ mo && mo ≤ 12 && 1 ≤ d && d ≤ daysInMonth y mo &&
    hh < 24 && mi < 60 && ss < 60

/-- Model of a Python `datetime` value.  `tzOffsetMin` is the fixed UTC offset in
minutes of an aware value, `none` for a naive value.  Microseconds are not
modelled (no claim depends on them). -/
structure PyDateTime where
  year : Nat
  month : Nat
  day : Nat
  hour : Nat
  minute : Nat
  second : Nat
  tzOffsetMin : Option Int
  deriving DecidableEq

/-- Validity of a `PyDateTime`'s civil fields. -/
def PyDateTime.valid (dt : PyDateTime) : Bool :=
  validCivil dt.year dt.month dt.day dt.hour dt.minute dt.second

/-- Model of the `datetime(...)` constructor: yields a value only for a valid
civil date, like the constructor that raises `ValueError` otherwise. -/
def mkValid (y mo d hh mi ss : Nat) (tz : Option Int) : Option PyDateTime :=
  if validCivil y mo d hh mi ss then some ⟨y, mo, d, hh, mi, ss, tz⟩ else none

/-- Fuel-indexed scan behind `pyReplace`; the fuel bounds the number of steps by
the input length, so the recursion is structural. -/
def pyReplaceFuel (pat rep : Str) : Nat → Str → Str
  | 0, s => s
  | _ + 1, [] => []
  | fuel + 1, c :: rest =>
    if List.isPrefixOf pat (c :: rest) = true ∧ pat ≠ [] then
      rep ++ pyReplaceFuel pat rep fuel (rest.drop (pat.length - 1))
    else c :: pyReplaceFuel pat rep fuel rest

/-- Model of Python `s.replace(pat, rep)` (all occurrences, left to right). -/
def pyReplace (pat rep s : Str) : Str :=
  pyReplaceFuel pat rep s.length s

/-- Split the time-of-day string at the first `+` or `-`, the position where
Python's ISO parser looks for a UTC offset. -/
def splitAtTz : Str → Str × Option (Char × Str)
  | [] => ([], none)
  | c :: r =>
    if c = '+' ∨ c = '-' then ([], some (c, r))
    else
      let (a, t) := splitAtTz r
      (c :: a, t)

/-- Consume one expected literal character. -/
def expectChar (c : Char) (s : Str) : Option Str :=
  match s with
  | x :: rest => if x = c then some rest else none
  | [] => none

/-- Parse `HH[:MM[:SS[.fff[fff]]]]` (fraction accepted and discarded; no claim
depends on microseconds). -/
def parseHMS (s : Str) : Option (Nat × Nat × Nat) :=
  match takeExact 2 s with
  | some (hh, []) => some (hh, 0, 0)
  | some (hh, ':' :: r) =>
    match takeExact 2 r with
    | some (mi, []) => some (hh, mi, 0)
    | some (mi, ':' :: r2) =>
      match takeExact 2 r2 with
      | some (ss, []) => some (hh, mi, ss)
      | some (ss, '.' :: r3) =>
        if (r3.length = 3 ∨ r3.length = 6) ∧ r3.all Char.isDigit then some (hh, mi, ss)
        else none
      | _ => none
    | _ => none
  | _ => none

/-- Parse a `±HH:MM` UTC offset into signed minutes. -/
def parseTzMin (c : Char) (s : Str) : Option Int :=
  match takeExact 2 s with
  | some (th, ':' :: r) =>
    match takeExact 2 r with
    | some (tm, []) =>
      if th < 24 ∧ tm < 60 then
        some ((if c = '-' then -1 else 1) * ((th : Int) * 60 + tm))
      else none
    | _ => none
  | _ => none

/-- Model of `datetime.fromisoformat` on the `YYYY-MM-DD[<sep>HH[:MM[:SS]]][±HH:MM]`
grammar it accepts (the separator may be any single character, matching the
parser's positional treatment); an invalid calendar date yields `none` like the
`ValueError` the real parser raises. -/
def pyFromIso (s : Str) : Option PyDateTime :=
  match takeExact 4 s with
  | none => none
  | some (y, r0) =>
  match expectChar '-' r0 with
  | none => none
  | some r1 =>
  match takeExact 2 r1 with
  | none => none
  | some (mo, r2) =>
  match expectChar '-' r2 with
  | none => none
  | some r3 =>
  match takeExact 2 r3 with
  | none => none
  | some (d, r5) =>
  match r5 with
  | [] => mkValid y mo d 0 0 0 none
  | _sep :: r6 =>
    match splitAtTz r6 with
    | (tp, none) =>
      match parseHMS tp with
      | some (hh, mi, ss) => mkValid y mo d hh mi ss none
      | none => none
    | (tp, some (c, ts)) =>
      match parseHMS tp, parseTzMin c ts with
      | some (hh, mi, ss), some off => mkValid y mo d hh mi ss (some off)
      | _, _ => none

/-- Alternation helper for the 1-or-2-digit fields of `strptime` numeric
directives: try the two-digit read first, then the one-digit read, like the
regex alternations CPython's `_strptime` builds. -/
def p2or1 (s : Str) (k : Nat → Str → Option PyDateTime) : Option PyDateTime :=
  (match takeExact 2 s with
   | some (v, r) => k v r
   | none => none) <|>
  (match takeExact 1 s with
   | some (v, r) => k v r
   | none => none)

/-- Model of `datetime.strptime(s, "%Y-%m-%d %H:%M:%S")`: four-digit year,
1-2 digit numeric fields, full consumption, `ValueError` (= `none`) on an
invalid civil date. -/
def strptimeYmdHMS (s : Str) : Option PyDateTime :=
  match takeExact 4 s with
  | none => none
  | some (y, r0) =>
  match expectChar '-' r0 with
  | none => none
  | some r1 =>
    p2or1 r1 (fun mo r2 =>
      match expectChar '-' r2 with
      | none => none
      | some r3 =>
        p2or1 r3 (fun d r4 =>
          match expectChar ' ' r4 with
          | none => none
          | some r5 =>
            p2or1 r5 (fun hh r6 =>
              match expectChar ':' r6 with
              | none => none
              | some r7 =>
                p2or1 r7 (fun mi r8 =>
                  match expectChar ':' r8 with
                  | none => none
                  | some r9 =>
                    p2or1 r9 (fun ss r10 =>
                      match r10 with
                      | [] => mkValid y mo d hh mi ss none
                      | _ => none)))))

/-- Model of `datetime.strptime(s, "%Y-%m-%d")`. -/
def strptimeYmd (s : Str) : Option PyDateTime :=
  match takeExact 4 s with
  | none => none
  | some (y, r0) =>
  match expectChar '-' r0 with
  | none => none
  | some r1 =>
    p2or1 r1 (fun mo r2 =>
      match expectChar '-' r2 with
      | none => none
      | some r3 =>
        p2or1 r3 (fun d r4 =>
          match r4 with
          | [] => mkValid y mo d 0 0 0 none
          | _ => none))

/-- Model of `re.match(r"(\d+)月(\d+)週.(\d{4})(\d{2}):(\d{2})", s)` from
`extract_datetime` (src/dom.py line 77): greedy digit runs before the literal
CJK characters make the match deterministic; `.` matches any character except a
newline; trailing characters are allowed (`re.match` anchors only the start).
Returns `(month, day, year, hour, minute)`. -/
def matchChinese (s : Str) : Option (Nat × Nat × Nat × Nat × Nat) :=
  let (moD, r1) := takeDigits s
  if moD = [] then none else
  match r1 with
  | '月' :: r2 =>
    let (dyD, r3) := takeDigits r2
    if dyD = [] then none else
    match r3 with
    | '週' :: c :: r4 =>
      if c = '\n' then none else
      match takeExact 4 r4 with
      | some (y, r5) =>
        match takeExact 2 r5 with
        | some (hh, ':' :: r6) =>
          match takeExact 2 r6 with
          | some (mi, _) => some (digitsToNat moD, digitsToNat dyD, y, hh, mi)
          | none => none
        | _ => none
      | none => none
    | _ => none
  | _ => none

/-- Embedding of the string-parsing cascade of `extract_datetime`
(src/dom.py lines 62-84): ISO-8601 after a `Z` to `+00:00` rewrite, then
`%Y-%m-%d %H:%M:%S`, then `%Y-%m-%d`, then the Chinese compact format pinned
to the Taipei zone (UTC+8, offset 480 minutes); every failure falls through
and an invalid civil date yields `none`. -/
def extract_datetime_str (dt_str : Str) : Option PyDateTime :=
  match pyFromIso (pyReplace ("Z").data ("+00:00").data dt_str) with
  | some dt => some dt
  | none =>
  match strptimeYmdHMS dt_str with
  | some dt => some dt
  | none =>
  match strptimeYmd dt_str with
  | some dt => some dt
  | none =>
  match matchChinese dt_str with
  | some (mo, d, y, hh, mi) => mkValid y mo d hh mi 0 (some 480)
  | none => none

/-! Post metadata and the pagination crawler's sort-and-reindex step
(src/model.py lines 12-20, src/page_crawler.py lines 189-197). -/

/-- Embedding of the `PostMetadata` dataclass (src/model.py lines 12-20).
`idx` has `init=False` with default `0` and is reassigned by
`PageCrawler._sort_and_reindex`. -/
structure PostMetadata where
  idx : Nat
  published_at : PyDateTime
  url : Str
  title : Str
  deriving DecidableEq

/-- Comparison key of a `datetime` value: civil fields encoded monotonically,
shifted by the UTC offset for aware values (Python compares aware datetimes by
instant; the crawler sorts values coming from one source). -/
def PyDateTime.key (dt : PyDateTime) : Int :=
  (((((dt.year : Int) * 13 + dt.month) * 32 + dt.day) * 24 + dt.hour) * 60 + dt.minute) * 60
      + dt.second - 60 * dt.tzOffsetMin.getD 0

/-- Ordering used by `sorted(posts, key=lambda p: p.published_at, reverse=True)`:
`a` may precede `b` when `a`'s timestamp is at least `b`'s. -/
def pubDesc (a b : PostMetadata) : Prop :=
  b.published_at.key ≤ a.published_at.key

instance : DecidableRel pubDesc := fun a b =>
  inferInstanceAs (Decidable (b.published_at.key ≤ a.published_at.key))

instance : IsTotal PostMetadata pubDesc :=
  ⟨fun a b => le_total b.published_at.key a.published_at.key⟩

instance : IsTrans PostMetadata pubDesc :=
  ⟨fun _ _ _ h1 h2 => le_trans h2 h1⟩

/-- Index assignment of `_sort_and_reindex`: the loop
`sorted_posts[len(sorted_posts)-i-1].idx = i + 1` gives the element at
position `j` of the sorted list the index `len - j`; `reindexFrom n` assigns
`n, n-1, ...` along the list. -/
def reindexFrom : Nat → List PostMetadata → List PostMetadata
  | _, [] => []
  | n, p :: ps => { p with idx := n } :: reindexFrom (n - 1) ps

/-- Embedding of `PageCrawler._sort_and_reindex` (src/page_crawler.py lines
189-197): stable sort descending by `published_at` (Python's `sorted` with
`reverse=True` is stable, as is `List.insertionSort`), then index reassignment. -/
def sort_and_reindex (posts : List PostMetadata) : List PostMetadata :=
  reindexFrom (List.insertionSort pubDesc posts).length (List.insertionSort pubDesc posts)

/-- Descending run `[n, n-1, ..., 1]`. -/
def countdown : Nat → List Nat
  | 0 => []
  | n + 1 => (n + 1) :: countdown n

/-! Persisted JSON-Lines metadata format (src/store.py). -/

/-- Values appearing in the per-line dict: JSON strings and numbers, plus the
`datetime` object `read_metadata` substitutes before calling the constructor. -/
inductive Jv where
  | s (v : Str)
  | n (v : Nat)
  | dt (v : PyDateTime)
  deriving DecidableEq

/-- Decimal rendering of `n` left-padded with zeros to width `w`. -/
def padNum (w n : Nat) : Str :=
  List.replicate (w - (Nat.toDigits 10 n).length) '0' ++ Nat.toDigits 10 n

/-- Model of `str(datetime)` = `isoformat(sep=' ')` (microsecond 0):
`YYYY-MM-DD HH:MM:SS` plus `±HH:MM` for aware values.  This is what
`json.dumps(..., default=str)` stores for `published_at`. -/
def pyStrDatetime (dt : PyDateTime) : Str :=
  padNum 4 dt.year ++ '-' :: padNum 2 dt.month ++ '-' :: padNum 2 dt.day ++
    ' ' :: padNum 2 dt.hour ++ ':' :: padNum 2 dt.minute ++ ':' :: padNum 2 dt.second ++
    (match dt.tzOffsetMin with
     | none => []
     | some off =>
       (if off < 0 then '-' else '+') ::
         (padNum 2 (off.natAbs / 60) ++ ':' :: padNum 2 (off.natAbs % 60)))

/-- Embedding of the line `write_jsonl` (src/store.py lines 36-63) produces for a
`PostMetadata`: `json.dumps(asdict(obj), default=str)` keeps the dataclass field
order `idx, published_at, url, title` and stringifies the datetime; the JSON
text round-trips to this association list in `json.loads`. -/
def write_jsonl_line (m : PostMetadata) : List (Str × Jv) :=
  [(("idx").data, Jv.n m.idx),
   (("published_at").data, Jv.s (pyStrDatetime m.published_at)),
   (("url").data, Jv.s m.url),
   (("title").data, Jv.s m.title)]

/-- Lookup of a key in the parsed JSON object. -/
def lookupKey (k : Str) (d : List (Str × Jv)) : Option Jv :=
  (d.find? (fun p => p.1 == k)).map Prod.snd

/-- In-place update `data[k] = v` of the parsed JSON object. -/
def setKey (k : Str) (v : Jv) (d : List (Str × Jv)) : List (Str × Jv) :=
  d.map (fun p => if p.1 == k then (p.1, v) else p)

/-- Keyword parameters accepted by the generated `PostMetadata.__init__`:
`idx` is excluded because it is declared `field(default=0, init=False)`. -/
def postMetadataInitKeys : List Str :=
  [("published_at").data, ("url").data, ("title").data]

/-- Model of the call `PostMetadata(**data)`: a keyword that is not an `__init__`
parameter raises `TypeError`; otherwise the three fields are read and `idx`
starts at its default `0`. -/
def postMetadataInit (kwargs : List (Str × Jv)) : Except Str PostMetadata :=
  if kwargs.any (fun p => !(postMetadataInitKeys.contains p.1)) then
    Except.error ("TypeError: __init__ got an unexpected keyword argument").data
  else
    match lookupKey (("published_at").data) kwargs, lookupKey (("url").data) kwargs,
        lookupKey (("title").data) kwargs with
    | some (Jv.dt d), some (Jv.s u), some (Jv.s t) => Except.ok ⟨0, d, u, t⟩
    | _, _, _ => Except.error ("TypeError: missing argument").data

/-- Embedding of the per-line body of `read_metadata` (src/store.py lines 12-33):
convert a string `published_at` with `datetime.fromisoformat` (a `ValueError`
propagates out of `read_metadata`, which has no handler), then call
`PostMetadata(**data)`. -/
def read_metadata_line (data : List (Str × Jv)) : Except Str PostMetadata :=
  match lookupKey (("published_at").data) data with
  | some (Jv.s v) =>
    match pyFromIso v with
    | some d => postMetadataInit (setKey (("published_at").data) (Jv.dt d) data)
    | none => Except.error ("ValueError: invalid isoformat string").data
  | _ => postMetadataInit data

/-! DOM model and the content linearizer (src/model.py lines 34-137). -/

/-- Model of a selectolax DOM node: an element with tag, attributes and child
nodes, or a text node.  Attribute values model `attributes.get`, which returns
`None` for a missing attribute. -/
inductive Dom where
  | elem (tag : Str) (attrs : List (Str × Str)) (children : List Dom)
  | txt (v : Str)

/-- Children walked by `Post.iter_direct_children` (src/model.py lines 132-137). -/
def childrenOf : Dom → List Dom
  | .txt _ => []
  | .elem _ _ cs => cs

mutual

/-- Model of `node.css(tag)` for a plain tag selector: all elements with that tag
in the subtree, in document (pre-order) order, the node itself included. -/
def cssTag (t : Str) : Dom → List Dom
  | .txt _ => []
  | .elem tg a cs => (if tg = t then [Dom.elem tg a cs] else []) ++ cssTagList t cs

/-- Tag search over a list of sibling subtrees, in document order. -/
def cssTagList (t : Str) : List Dom → List Dom
  | [] => []
  | c :: cs => cssTag t c ++ cssTagList t cs

end

/-- Model of `node.css_first(tag)`. -/
def cssFirstTag (t : Str) (n : Dom) : Option Dom :=
  (cssTag t n).head?

/-- Model of `node.attributes.get(k)`. -/
def attrsGet (n : Dom) (k : Str) : Option Str :=
  match n with
  | .txt _ => none
  | .elem _ attrs _ => (attrs.find? (fun p => p.1 == k)).map Prod.snd

mutual

/-- Model of `node.text(strip=True)`: concatenation of all text parts of the
subtree in document order, each part stripped. -/
def textStrip : Dom → Str
  | .txt v => pyStrip v
  | .elem _ _ cs => textStripList cs

/-- Stripped text of a list of sibling subtrees. -/
def textStripList : List Dom → Str
  | [] => []
  | c :: cs => textStrip c ++ textStripList cs

end

mutual

/-- Model of `node.text()` without stripping (used on `<script>` nodes). -/
def textAll : Dom → Str
  | .txt v => v
  | .elem _ _ cs => textAllList cs

/-- Raw text of a list of sibling subtrees. -/
def textAllList : List Dom → Str
  | [] => []
  | c :: cs => textAll c ++ textAllList cs

end

/-- Embedding of the `LineKind` enum (src/model.py lines 34-37). -/
inductive LineKind where
  | TEXT
  | IMAGE
  | LINK
  deriving DecidableEq

/-- Embedding of the `Line` dataclass (src/model.py lines 40-46). -/
structure Line where
  kind : LineKind
  body : Str
  url : Option Str
  deriving DecidableEq

/-- Mutable state accumulated by `append_lines`: the three output lists plus a
counter feeding the suffix source that models `random.choices` (the program
draws a fresh 4-character suffix per image; the model reads successive values
of a caller-supplied stream `sf`). -/
structure ParseSt where
  content_many : List Line
  link_many : List (Str × Str)
  image_many : List (Str × Str)
  rng : Nat
  deriving DecidableEq

/-- Embedding of the `Post` dataclass (src/model.py lines 58-63). -/
structure Post where
  metadata : PostMetadata
  content_many : List Line
  link_many : List (Str × Str)
  image_many : List (Str × Str)
  deriving DecidableEq

/-- Image emission of `append_lines` (src/model.py lines 91-98): caption from
`title`/`alt`, placeholder `no_alt_<suffix>` otherwise, extension fixed by
`ensure_ext`; `image_many` records the pair only for a truthy `src`. -/
def emitImage (sf : Nat → Str) (img : Dom) (st : ParseSt) : ParseSt :=
  let src := attrsGet img ("src").data
  let caption := pyOrOpt (attrsGet img ("title").data) (pyOrOpt (attrsGet img ("alt").data) [])
  let body := ensure_ext (pyOrStr caption (("no_alt_").data ++ sf st.rng)) src
  { content_many := st.content_many ++ [⟨LineKind.IMAGE, body, src⟩],
    link_many := st.link_many,
    image_many := st.image_many ++
      (match src with
       | some v => if v ≠ [] then [(v, body)] else []
       | none => []),
    rng := st.rng + 1 }

/-- Link emission of `append_lines` (src/model.py lines 101-108). -/
def emitLink (n ln : Dom) (st : ParseSt) : ParseSt :=
  let href := attrsGet ln ("href").data
  let body := pyOrStr (pyOrStr (textStrip n) (textStrip ln)) (pyOrOpt href [])
  { content_many := st.content_many ++ [⟨LineKind.LINK, body, href⟩],
    link_many := st.link_many ++
      (match href with
       | some v => if v ≠ [] then [(v, body)] else []
       | none => []),
    image_many := st.image_many,
    rng := st.rng }

/-- Text emission of `append_lines` (src/model.py lines 111-113). -/
def emitText (n : Dom) (st : ParseSt) : ParseSt :=
  { st with content_many := st.content_many ++ [⟨LineKind.TEXT, textStrip n, none⟩] }

mutual

/-- Embedding of `append_lines` (src/model.py lines 79-117): all `<img>`
descendants win, else the first `<a>` without a nested image, else stripped
text, else recursion into the direct children.  The Python code reaches the
text-and-recurse tail both when no `<a>` exists and when the `<a>` has a
nested image; that shared tail is spelled out in both arms here so that the
recursion stays structural. -/
def appendLines (sf : Nat → Str) (n : Dom) (st : ParseSt) : ParseSt :=
  match n with
  | .txt v =>
    match cssTag ("img").data (.txt v) with
    | i :: is' => (i :: is').foldl (fun s img => emitImage sf img s) st
    | [] =>
      match cssFirstTag ("a").data (.txt v) with
      | some ln =>
        match cssFirstTag ("img").data ln with
        | none => emitLink (.txt v) ln st
        | some _ => if textStrip (.txt v) ≠ [] then emitText (.txt v) st else st
      | none => if textStrip (.txt v) ≠ [] then emitText (.txt v) st else st
  | .elem t a cs =>
    match cssTag ("img").data (.elem t a cs) with
    | i :: is' => (i :: is').foldl (fun s img => emitImage sf img s) st
    | [] =>
      match cssFirstTag ("a").data (.elem t a cs) with
      | some ln =>
        match cssFirstTag ("img").data ln with
        | none => emitLink (.elem t a cs) ln st
        | some _ =>
          if textStrip (.elem t a cs) ≠ [] then emitText (.elem t a cs) st
          else appendLinesList sf cs st
      | none =>
        if textStrip (.elem t a cs) ≠ [] then emitText (.elem t a cs) st
        else appendLinesList sf cs st

/-- The loop `for child in iter_direct_children(...): append_lines(child)`. -/
def appendLinesList (sf : Nat → Str) : List Dom → ParseSt → ParseSt
  | [], st => st
  | c :: cs, st => appendLinesList sf cs (appendLines sf c st)

end

/-! Fallback recovery chain (src/model.py lines 152-250). -/

/-- Attributes of one `<img ...>` tag as recovered by the regex scans of
fallback stages 3-4 (`re.finditer(r"<img[^>]+>", html)` followed by the
`src`/`title`/`alt` attribute patterns): `src` is `none` when the `src`
pattern found nothing (such a tag is skipped), `title`/`alt` are `none`
when absent and may be empty strings.  The stages receive these match
lists as inputs of the model. -/
structure ImgTag where
  src : Option Str
  title : Option Str
  alt : Option Str
  deriving DecidableEq

/-- Shared append of the fallback stages: record the pair, the content line and
the de-duplication entry together (src/model.py lines 171-173 and the three
analogous sites). -/
def fbAddImage (src body : Str) (p : ParseSt × List Str) : ParseSt × List Str :=
  ({ p.1 with
      content_many := p.1.content_many ++ [⟨LineKind.IMAGE, body, some src⟩],
      image_many := p.1.image_many ++ [(src, body)] },
    p.2 ++ [src])

/-- Stage 1 per-image step (src/model.py lines 165-173): skip a falsy or
already-seen `src`, otherwise add with caption `title`/`alt`/`"(no alt)"`. -/
def fbStage1Step (p : ParseSt × List Str) (img : Dom) : ParseSt × List Str :=
  match attrsGet img ("src").data with
  | none => p
  | some src =>
    if src = [] ∨ src ∈ p.2 then p
    else
      let caption := pyOrOpt (attrsGet img ("title").data) (pyOrOpt (attrsGet img ("alt").data) [])
      fbAddImage src (ensure_ext (pyOrStr caption ("(no alt)").data) (some src)) p

/-- Stage 2 per-image step (src/model.py lines 198-209): like stage 1 but only
for sources containing the asset-host substring `pimg.tw/workatravel`. -/
def fbStage2Step (p : ParseSt × List Str) (img : Dom) : ParseSt × List Str :=
  match attrsGet img ("src").data with
  | none => p
  | some src =>
    if src = [] ∨ src ∈ p.2 then p
    else if ¬ pyIn ("pimg.tw/workatravel").data src then p
    else
      let caption := pyOrOpt (attrsGet img ("title").data) (pyOrOpt (attrsGet img ("alt").data) [])
      fbAddImage src (ensure_ext (pyOrStr caption ("(no alt)").data) (some src)) p

/-- Stage 3 per-tag step (src/model.py lines 215-229): a tag without a `src`
match is skipped; an already-seen `src` is skipped; the caption comes from the
`title` then `alt` regex groups. -/
def fbStage3Step (p : ParseSt × List Str) (t : ImgTag) : ParseSt × List Str :=
  match t.src with
  | none => p
  | some src =>
    if src ∈ p.2 then p
    else
      let caption := pyOrStr (t.title.getD []) (t.alt.getD [])
      fbAddImage src (ensure_ext (pyOrStr caption ("(no alt)").data) (some src)) p

/-- Stage 4 per-tag step (src/model.py lines 236-250): like stage 3 but only for
sources containing the asset-host substring. -/
def fbStage4Step (p : ParseSt × List Str) (t : ImgTag) : ParseSt × List Str :=
  match t.src with
  | none => p
  | some src =>
    if src ∈ p.2 ∨ ¬ pyIn ("pimg.tw/workatravel").data src then p
    else
      let caption := pyOrStr (t.title.getD []) (t.alt.getD [])
      fbAddImage src (ensure_ext (pyOrStr caption ("(no alt)").data) (some src)) p

/-- Stage 1 (src/model.py lines 164-173): re-scan all `<img>` elements under the
content root (runs unconditionally). -/
def fbStage1 (root : Dom) (p : ParseSt × List Str) : ParseSt × List Str :=
  (cssTag ("img").data root).foldl fbStage1Step p

/-- Stage 2 (src/model.py lines 175-209): scan the whole parsed document for
asset-host images; runs whenever the document is available (runs regardless of
what stage 1 found). -/
def fbStage2 (doc : Option Dom) (p : ParseSt × List Str) : ParseSt × List Str :=
  match doc with
  | some d => (cssTag ("img").data d).foldl fbStage2Step p
  | none => p

/-- Stage 3 (src/model.py lines 211-229): regex scan of the content root's raw
HTML; runs only while `image_many` is still empty (the root's `html` string of
a parsed element is non-empty). -/
def fbStage3 (rootTags : List ImgTag) (p : ParseSt × List Str) : ParseSt × List Str :=
  if p.1.image_many = [] then rootTags.foldl fbStage3Step p else p

/-- Stage 4 (src/model.py lines 231-250): regex scan of the whole document's raw
HTML filtered by asset host; runs only while `image_many` is still empty and a
document is available. -/
def fbStage4 (doc : Option Dom) (docTags : List ImgTag) (p : ParseSt × List Str) :
    ParseSt × List Str :=
  match doc with
  | some _ => if p.1.image_many = [] then docTags.foldl fbStage4Step p else p
  | none => p

/-- Embedding of `Post._apply_fallback_strategies` (src/model.py lines 152-250).
`doc` models `root.parser` (the whole parsed document, `None` when absent);
`rootTags`/`docTags` model the `<img>` tag matches the regex scans extract from
`root.html`/`doc.html` in match order (`root.html` of a parsed element is a
non-empty string, so stage 3 is gated only by `image_many` being empty).
The four stages run in order on the shared `seen_images` set seeded with the
truthy URLs already in `image_many`. -/
def apply_fallback_strategies (root : Dom) (doc : Option Dom)
    (rootTags docTags : List ImgTag) (st : ParseSt) : ParseSt :=
  (fbStage4 doc docTags (fbStage3 rootTags (fbStage2 doc (fbStage1 root
    (st, (st.image_many.map Prod.fst).filter (fun u => u ≠ [])))))).1

/-- Embedding of `Post.parse_dom_node` (src/model.py lines 65-130): linearize the
direct children of `root`, then optionally run the fallback chain
(`enable_fallback` defaults to `False` in the source and no caller passes
`True`). -/
def parse_dom_node (sf : Nat → Str) (root : Dom) (doc : Option Dom)
    (rootTags docTags : List ImgTag) (metadata : PostMetadata)
    (enable_fallback : Bool) : Post :=
  let st := appendLinesList sf (childrenOf root) ⟨[], [], [], 0⟩
  let st2 := if enable_fallback then apply_fallback_strategies root doc rootTags docTags st else st
  ⟨metadata, st2.content_many, st2.link_many, st2.image_many⟩

/-! Post crawler (src/post_crawler.py). -/

/-- Runtime value of the `content_container` configuration: the
`PostCrawlerSelectors` dataclass (src/model.py lines 274-277) declares
`list[str]`, while the caller in `post_crawler.main` passes a single selector
string; Python does not enforce the annotation, so both shapes occur. -/
inductive PyVal where
  | s (v : Str)
  | lst (v : List Str)

/-- Selector semantics sufficient for the selectors this program uses:
`#x` matches the element whose `id` attribute is `x`; a bare name matches the
tag name. -/
def matchesSel (sel : Str) (n : Dom) : Bool :=
  match sel with
  | '#' :: rest => attrsGet n ("id").data == some rest
  | _ =>
    match n with
    | .txt _ => false
    | .elem tg _ _ => tg == sel

mutual

/-- Model of `tree.css_first(sel)`: first matching node in pre-order. -/
def cssFirstSel (sel : Str) : Dom → Option Dom
  | .txt v => if matchesSel sel (.txt v) then some (.txt v) else none
  | .elem t a cs =>
    if matchesSel sel (.elem t a cs) then some (.elem t a cs) else cssFirstSelList sel cs

/-- First selector match over sibling subtrees. -/
def cssFirstSelList (sel : Str) : List Dom → Option Dom
  | [] => none
  | c :: cs =>
    match cssFirstSel sel c with
    | some r => some r
    | none => cssFirstSelList sel cs

end

/-- Literal `self.__next_f.push([1,"` that opens a hydration push payload. -/
def nextFMarker : Str := ("self.__next_f.push([1,\"").data

/-- Literal `"])` that closes a hydration push payload. -/
def nextFCloser : Str := ("\"])").data

/-- Literal `self.__next_f.push` used for the cheap pre-check. -/
def nextFNeedle : Str := ("self.__next_f.push").data

/-- Index of the first occurrence of `sub`, scanning from position `i`. -/
def pyFindAux (sub : Str) : Str → Nat → Option Nat
  | [], i => if sub = [] then some i else none
  | c :: rest, i =>
    if List.isPrefixOf sub (c :: rest) then some i else pyFindAux sub rest (i + 1)

/-- Model of Python `s.find(sub)` returning `none` for `-1`. -/
def pyFind (sub s : Str) : Option Nat := pyFindAux sub s 0

/-- Index accumulator scan for the last occurrence of `sub`. -/
def pyRFindAux (sub : Str) : Str → Nat → Option Nat → Option Nat
  | [], i, acc => if sub = [] then some i else acc
  | c :: rest, i, acc =>
    pyRFindAux sub rest (i + 1) (if List.isPrefixOf sub (c :: rest) then some i else acc)

/-- Model of Python `s.rfind(sub)` returning `none` for `-1`. -/
def pyRFind (sub s : Str) : Option Nat := pyRFindAux sub s 0 none

/-- Model of `re.search(r'self\.__next_f\.push\(\[1,"(.*)"\]\)', text, re.DOTALL)`
(src/post_crawler.py line 143): the greedy `(.*)` captures from just after the
first occurrence of the opening literal to just before the last occurrence of
`"])`; there is no match when no closer lies at or beyond the capture start. -/
def pushCapture (text : Str) : Option Str :=
  match pyFind nextFMarker text with
  | none => none
  | some p =>
    match pyRFind nextFCloser text with
    | none => none
    | some q =>
      if p + nextFMarker.length ≤ q then
        some ((text.drop (p + nextFMarker.length)).take (q - (p + nextFMarker.length)))
      else none

/-- Hexadecimal digit test. -/
def isHexCh (c : Char) : Bool :=
  c.isDigit || ('a' ≤ c && c ≤ 'f') || ('A' ≤ c && c ≤ 'F')

/-- Hexadecimal digit value. -/
def hexVal (c : Char) : Nat :=
  if c.isDigit then c.toNat - '0'.toNat
  else if 'a' ≤ c ∧ c ≤ 'f' then c.toNat - 'a'.toNat + 10
  else if 'A' ≤ c ∧ c ≤ 'F' then c.toNat - 'A'.toNat + 10
  else 0

/-- Model of `content.encode('utf-8').decode('unicode_escape')`
(src/post_crawler.py line 146) for the escape forms occurring in hydration
payloads (`\n`, `\t`, `\r`, `\"`, `\\`, `\uXXXX`); other characters pass
through unchanged. -/
def unicodeUnescape : Str → Str
  | [] => []
  | '\\' :: 'n' :: rest => '\n' :: unicodeUnescape rest
  | '\\' :: 't' :: rest => '\t' :: unicodeUnescape rest
  | '\\' :: 'r' :: rest => '\r' :: unicodeUnescape rest
  | '\\' :: '"' :: rest => '"' :: unicodeUnescape rest
  | '\\' :: '\\' :: rest => '\\' :: unicodeUnescape rest
  | '\\' :: 'u' :: a :: b :: c :: d :: rest =>
    if isHexCh a && isHexCh b && isHexCh c && isHexCh d then
      Char.ofNat (((hexVal a * 16 + hexVal b) * 16 + hexVal c) * 16 + hexVal d) ::
        unicodeUnescape rest
    else '\\' :: 'u' :: unicodeUnescape (a :: b :: c :: d :: rest)
  | c :: rest => c :: unicodeUnescape rest

/-- Script-payload collection of `_extract_hydrated_content`
(src/post_crawler.py lines 111-149): for each `<script>`, skip unless the text
mentions the push call, contains the opening literal, and contains `<p` or
`<span`; then capture and unescape the payload. -/
def hydFragments (tree : Dom) : List Str :=
  (cssTag ("script").data tree).foldl
    (fun acc sc =>
      let text := textAll sc
      if text = [] then acc
      else if ¬ pyIn nextFNeedle text then acc
      else if ¬ pyIn nextFMarker text then acc
      else if ¬ (pyIn ("<p").data text || pyIn ("<span").data text) then acc
      else
        match pushCapture text with
        | some cap => acc ++ [unicodeUnescape cap]
        | none => acc)
    []

/-- Fragment filter of `_extract_hydrated_content` (src/post_crawler.py lines
156-159): keep fragments that look like HTML. -/
def htmlLike (f : Str) : Bool :=
  pyIn ("<p").data f || pyIn ("<div").data f || pyIn ("<span").data f || pyIn ("<br").data f

/-- Model of Python `max(l, key=len)`: first element of maximal length. -/
def pyMaxByLen (l : List Str) : Str :=
  match l with
  | [] => []
  | x :: xs => xs.foldl (fun best f => if best.length < f.length then f else best) x

/-- Embedding of `PostCrawler._extract_hydrated_content`
(src/post_crawler.py lines 107-176): collect candidate fragments, keep the
HTML-like ones, and return the longest (`max(html_fragments, key=len)`). -/
def extract_hydrated_content (tree : Dom) : Option Str :=
  let fragments := hydFragments tree
  if fragments = [] then none
  else
    let html_fragments := fragments.filter htmlLike
    if html_fragments = [] then none
    else some (pyMaxByLen html_fragments)

/-- Error raised when `css_first` receives a non-string selector value. -/
inductive PErr where
  | typeErr
  deriving DecidableEq

/-- Model of `tree.css_first(self._selectors.content_container)`
(src/post_crawler.py line 78): selectolax raises `TypeError` when the
configured value is the declared `list[str]` rather than a string. -/
def cssFirstVal (d : Dom) (cc : PyVal) : Except PErr (Option Dom) :=
  match cc with
  | .s sel => .ok (cssFirstSel sel d)
  | .lst _ => .error .typeErr

/-- Embedding of `PostCrawler._parse_post` (src/post_crawler.py lines 72-105):
find the content container with one `css_first` call; a missing container is a
per-post failure (`None`); when the container holds no `<img>`, try the
hydration recovery and, on success, parse the substituted fragment (`hydParse`
models `HTMLParser(f'<div id="article-content-inner">...')`'s wrapped node);
finally linearize with `Post.parse_dom_node` (fallback chain not enabled). -/
def parse_post (hydParse : Str → Dom) (sf : Nat → Str) (tree : Dom)
    (cc : PyVal) (metadata : PostMetadata) : Except PErr (Option Post) :=
  match cssFirstVal tree cc with
  | .error e => .error e
  | .ok none => .ok none
  | .ok (some cn) =>
    let cn2 :=
      if (cssTag ("img").data cn).isEmpty then
        match extract_hydrated_content tree with
        | some h => hydParse h
        | none => cn
      else cn
    .ok (some (parse_dom_node sf cn2 none [] [] metadata false))

/-- Per-item result of `PostCrawler._fetch_post` (src/post_crawler.py lines
53-70) once the document is fetched: a raised exception is caught, the fetch
retried against the same document, and the item ends as `None`; a missing
container is already `None`. -/
def fetch_post_result (hydParse : Str → Dom) (sf : Nat → Str)
    (item : Dom × PostMetadata) (cc : PyVal) : Option Post :=
  match parse_post hydParse sf item.1 cc item.2 with
  | .error _ => none
  | .ok r => r

/-- Embedding of `PostCrawler.crawl` (src/post_crawler.py lines 40-51) over
already-fetched documents: parse every item and keep the non-`None` results in
input order. -/
def post_crawl (hydParse : Str → Dom) (sf : Nat → Str)
    (items : List (Dom × PostMetadata)) (cc : PyVal) : List Post :=
  (items.map (fun it => fetch_post_result hydParse sf it cc)).filterMap id

/-! Fetch retry loops (src/main.py lines 95-135, src/page_crawler.py lines
111-153).  A fetch attempt's outcome is predetermined by a `responses` stream
indexed by attempt number; sleeps are not modelled. -/

/-- Outcome of one HTTP attempt. -/
inductive FetchOutcome where
  | status (code : Nat)
  | transient
  | requestErr
  | unexpected

/-- Embedding of `_should_retry_status` (src/main.py lines 11-12). -/
def should_retry_status (code : Nat) : Bool :=
  code == 429 || code == 500 || code == 502 || code == 503 || code == 504

/-- Result of a fetch loop together with the number of attempts performed. -/
inductive FetchResult where
  | ok (attempts : Nat)
  | fail (attempts : Nat)
  deriving DecidableEq

/-- Attempt loop of `PostMetadataExtractor._fetch_and_extract`
(src/main.py lines 95-135): 2xx succeeds; a non-2xx status retries only while
attempts remain and the status is in the retryable set; transient network
errors retry while attempts remain; request errors and unexpected errors fail
immediately. -/
def faeLoop (retries : Nat) (responses : Nat → FetchOutcome) : Nat → Nat → FetchResult
  | 0, a => .fail a
  | fuel + 1, a =>
    match responses a with
    | .status c =>
      if 200 ≤ c ∧ c < 300 then .ok (a + 1)
      else if a < retries ∧ should_retry_status c then faeLoop retries responses fuel (a + 1)
      else .fail (a + 1)
    | .transient =>
      if a < retries then faeLoop retries responses fuel (a + 1) else .fail (a + 1)
    | .requestErr => .fail (a + 1)
    | .unexpected => .fail (a + 1)

/-- Embedding of `PostMetadataExtractor._fetch_and_extract`. -/
def fetch_and_extract (retries : Nat) (responses : Nat → FetchOutcome) : FetchResult :=
  faeLoop retries responses (retries + 1) 0

/-- Attempt loop of `PageCrawler._fetch_page` (src/page_crawler.py lines
111-153): 2xx succeeds; ANY non-2xx status retries while attempts remain
(there is no retryable-status distinction here); transient errors retry while
attempts remain; an unexpected error returns the empty page immediately.
The result records success and the number of attempts performed. -/
def fpLoop (retries : Nat) (responses : Nat → FetchOutcome) : Nat → Nat → Bool × Nat
  | 0, a => (false, a)
  | fuel + 1, a =>
    match responses a with
    | .status c =>
      if 200 ≤ c ∧ c < 300 then (true, a + 1)
      else if a < retries then fpLoop retries responses fuel (a + 1)
      else (false, a + 1)
    | .transient =>
      if a < retries then fpLoop retries responses fuel (a + 1) else (false, a + 1)
    | .requestErr => (false, a + 1)
    | .unexpected => (false, a + 1)

/-- Embedding of `PageCrawler._fetch_page`'s retry behavior. -/
def fetch_page (retries : Nat) (responses : Nat → FetchOutcome) : Bool × Nat :=
  fpLoop retries responses (retries + 1) 0

/-! Theorems for the claims. -/

/-- Claim C10: `Post.ensure_ext` is idempotent — for every `name` and `src`,
`ensure_ext (ensure_ext name src) src = ensure_ext name src`; and when `name`
already ends case-insensitively with the extension reconstructed from `src`'s
final path segment, `name` is returned unchanged. -/
theorem claim_C10 :
    (∀ name src, ensure_ext (ensure_ext name src) src = ensure_ext name src) ∧
    (∀ name src ext, extFromSrc src = some ext →
      pyEndsWith (pyLower name) (pyLower ext) = true → ensure_ext name src = name) := by
  constructor
  · exact ensure_ext_idem
  · intro name src ext hext hend
    cases src with
    | none => simp [extFromSrc] at hext
    | some s =>
      simp only [extFromSrc] at hext
      simp only [ensure_ext]
      split_ifs at hext ⊢ with h1 h2 h3 h4 <;>
        first
          | rfl
          | exact Option.noConfusion hext
          | (injection hext with he; subst he; exact absurd hend h4)

/-- Witness for claim C10: a concrete `src` whose reconstructed extension
`.jpg` is already carried (case-insensitively) by the name `a.JPG`, which is
returned unchanged. -/
theorem claim_C10_witness :
    ensure_ext (("a.JPG").data) (some (("x/y.jpg").data)) = ("a.JPG").data :=
  claim_C10.2 (("a.JPG").data) (some (("x/y.jpg").data)) ((".jpg").data)
    (by decide) (by decide)

theorem reindexFrom_length (n : Nat) (l : List PostMetadata) :
    (reindexFrom n l).length = l.length := by
  induction l generalizing n with
  | nil => rfl
  | cons p ps ih => simp [reindexFrom, ih]

theorem reindexFrom_map_idx (l : List PostMetadata) :
    (reindexFrom l.length l).map (·.idx) = countdown l.length := by
  induction l with
  | nil => rfl
  | cons p ps ih =>
    show (reindexFrom (ps.length + 1) (p :: ps)).map (·.idx) = countdown (ps.length + 1)
    simp only [reindexFrom, countdown, List.map_cons, Nat.add_sub_cancel]
    exact congrArg _ ih

theorem countdown_mem (n k : Nat) : k ∈ countdown n ↔ 1 ≤ k ∧ k ≤ n := by
  induction n with
  | zero => simp [countdown]; omega
  | succ n ih =>
    simp only [countdown, List.mem_cons, ih]
    omega

theorem countdown_nodup (n : Nat) : (countdown n).Nodup := by
  induction n with
  | zero => simp [countdown]
  | succ n ih =>
    simp only [countdown, List.nodup_cons]
    refine ⟨fun hmem => ?_, ih⟩
    have := (countdown_mem n (n + 1)).mp hmem
    omega

theorem reindexFrom_strip (n : Nat) (l : List PostMetadata) :
    (reindexFrom n l).map (fun p => (p.published_at, p.url, p.title)) =
      l.map (fun p => (p.published_at, p.url, p.title)) := by
  induction l generalizing n with
  | nil => rfl
  | cons p ps ih => simp [reindexFrom, ih]

theorem reindexFrom_pub_mem (n : Nat) (l : List PostMetadata) (q : PostMetadata) :
    q ∈ reindexFrom n l → ∃ q0 ∈ l, q.published_at = q0.published_at := by
  induction l generalizing n with
  | nil => intro h; cases h
  | cons p ps ih =>
    intro h
    rcases List.mem_cons.mp h with h | h
    · exact ⟨p, List.mem_cons_self _ _, by rw [h]⟩
    · obtain ⟨q0, hq0, he⟩ := ih (n - 1) h
      exact ⟨q0, List.mem_cons_of_mem _ hq0, he⟩

theorem reindexFrom_pairwise (n : Nat) (l : List PostMetadata)
    (h : List.Pairwise pubDesc l) : List.Pairwise pubDesc (reindexFrom n l) := by
  induction l generalizing n with
  | nil => exact List.Pairwise.nil
  | cons p ps ih =>
    rcases List.pairwise_cons.mp h with ⟨hp, hps⟩
    refine List.pairwise_cons.mpr ⟨fun q hq => ?_, ih (n - 1) hps⟩
    obtain ⟨q0, hq0, he⟩ := reindexFrom_pub_mem (n - 1) ps q hq
    show q.published_at.key ≤ ({ p with idx := n } : PostMetadata).published_at.key
    rw [he]
    exact hp q0 hq0

/-- Claim C1 (amended): `PageCrawler._sort_and_reindex` returns the merged
candidates sorted descending by `published_at` (stable, since `sorted` and the
model's insertion sort are stable), with `idx` a dense sequence `1..N` with no
duplicates or gaps assigned so that position `j` of the descending list holds
index `N - j`: the OLDEST post receives index 1 and the newest receives
index N (not index 1 as originally claimed). -/
theorem claim_C1 (posts : List PostMetadata) :
    (sort_and_reindex posts).length = posts.length ∧
    (sort_and_reindex posts).map (·.idx) = countdown posts.length ∧
    ((sort_and_reindex posts).map (·.idx)).Nodup ∧
    (∀ k, k ∈ (sort_and_reindex posts).map (·.idx) ↔ 1 ≤ k ∧ k ≤ posts.length) ∧
    List.Pairwise pubDesc (sort_and_reindex posts) ∧
    List.Perm ((sort_and_reindex posts).map (fun p => (p.published_at, p.url, p.title)))
      (posts.map (fun p => (p.published_at, p.url, p.title))) := by
  have hslen : (List.insertionSort pubDesc posts).length = posts.length :=
    (List.perm_insertionSort pubDesc posts).length_eq
  have hmap : (sort_and_reindex posts).map (·.idx) = countdown posts.length := by
    unfold sort_and_reindex
    rw [reindexFrom_map_idx, hslen]
  refine ⟨?_, hmap, ?_, ?_, ?_, ?_⟩
  · unfold sort_and_reindex
    rw [reindexFrom_length, hslen]
  · rw [hmap]; exact countdown_nodup _
  · intro k; rw [hmap]; exact countdown_mem _ k
  · exact reindexFrom_pairwise _ _ (List.sorted_insertionSort pubDesc posts)
  · unfold sort_and_reindex
    rw [reindexFrom_strip]
    exact (List.perm_insertionSort pubDesc posts).map _

/-- Older of the two posts in the C1 counterexample (published 2025-01-01). -/
def c1PostOld : PostMetadata := ⟨0, ⟨2025, 1, 1, 0, 0, 0, none⟩, ("a").data, ("ta").data⟩

/-- Newer of the two posts in the C1 counterexample (published 2025-01-02). -/
def c1PostNew : PostMetadata := ⟨0, ⟨2025, 1, 2, 0, 0, 0, none⟩, ("b").data, ("tb").data⟩

/-- Counterexample to claim C1 as stated: with two posts, the head of the
returned descending list is the NEWEST post and it carries index 2, while the
oldest post (last) carries index 1 — the newest post does not receive
index 1. -/
theorem claim_C1_counterexample :
    (sort_and_reindex [c1PostOld, c1PostNew]).head?.map (fun p => (p.idx, p.published_at)) =
        some (2, c1PostNew.published_at) ∧
      (sort_and_reindex [c1PostOld, c1PostNew]).getLast?.map (fun p => (p.idx, p.published_at)) =
        some (1, c1PostOld.published_at) := by
  decide

/-- Claim C2: writing a `PostMetadata` with `write_jsonl` and re-parsing the
line with `read_metadata` never succeeds: `asdict` serializes the `init=False`
field `idx`, and `PostMetadata(**data)` then raises `TypeError: __init__ got an
unexpected keyword argument` for every input, so the claimed round-trip fails
on every value. -/
theorem claim_C2 (m : PostMetadata) :
    (read_metadata_line (write_jsonl_line m)).isOk = false := by
  have hlook : lookupKey (("published_at").data) (write_jsonl_line m) =
      some (Jv.s (pyStrDatetime m.published_at)) := by
    simp [lookupKey, write_jsonl_line, List.find?]
  simp only [read_metadata_line, hlook]
  cases hp : pyFromIso (pyStrDatetime m.published_at) with
  | none => simp only [hp]; rfl
  | some d =>
    simp only [hp]
    have hset : setKey (("published_at").data) (Jv.dt d) (write_jsonl_line m) =
        [(("idx").data, Jv.n m.idx), (("published_at").data, Jv.dt d),
         (("url").data, Jv.s m.url), (("title").data, Jv.s m.title)] := by
      simp [setKey, write_jsonl_line]
    rw [hset]
    unfold postMetadataInit
    rw [if_pos]
    · rfl
    · rw [List.any_cons]
      have h1 : (!(postMetadataInitKeys.contains (("idx").data))) = true := by decide
      show (!(postMetadataInitKeys.contains (("idx").data)) ||
        ([(("published_at").data, Jv.dt d), (("url").data, Jv.s m.url),
          (("title").data, Jv.s m.title)]).any (fun p => !(postMetadataInitKeys.contains p.1))) = true
      rw [h1, Bool.true_or]

/-- Counterexample to claim C3 as stated: `PageCrawler._fetch_page` retries a
404 response — with a retry budget of 2 and every attempt answering 404, the
loop performs 3 attempts before giving the page up, not exactly one. -/
theorem claim_C3_counterexample :
    fetch_page 2 (fun _ => FetchOutcome.status 404) = (false, 3) ∧ (3 : Nat) ≠ 1 := by
  decide

/-- Claim C3 (amended): only `PostMetadataExtractor._fetch_and_extract`
(src/main.py) treats a non-retryable non-2xx status as a terminal failure after
exactly one attempt regardless of the retry budget; `PageCrawler._fetch_page`
(src/page_crawler.py) retries EVERY non-2xx status while attempts remain and
returns the failed (empty) page only after `retries + 1` attempts. -/
theorem claim_C3 :
    (∀ (retries : Nat) (responses : Nat → FetchOutcome) (code : Nat),
      responses 0 = FetchOutcome.status code → ¬ (200 ≤ code ∧ code < 300) →
      should_retry_status code = false →
      fetch_and_extract retries responses = FetchResult.fail 1) ∧
    (∀ (retries : Nat) (responses : Nat → FetchOutcome),
      (∀ i, ∃ c, responses i = FetchOutcome.status c ∧ ¬ (200 ≤ c ∧ c < 300)) →
      fetch_page retries responses = (false, retries + 1)) := by
  constructor
  · intro retries responses code h0 hno2xx hnoretry
    unfold fetch_and_extract
    show faeLoop retries responses (retries + 1) 0 = FetchResult.fail 1
    unfold faeLoop
    rw [h0]
    simp [hno2xx, hnoretry]
  · intro retries responses h
    unfold fetch_page
    suffices hgen : ∀ fuel a, a + fuel = retries + 1 →
        fpLoop retries responses fuel a = (false, retries + 1) by
      exact hgen (retries + 1) 0 (by omega)
    intro fuel
    induction fuel with
    | zero => intro a ha; unfold fpLoop; rw [show a = retries + 1 by omega]
    | succ n ih =>
      intro a ha
      obtain ⟨c, hc, hno⟩ := h a
      unfold fpLoop
      rw [hc]
      simp only [hno, if_false]
      by_cases hlt : a < retries
      · simp only [hlt, if_true]
        exact ih (a + 1) (by omega)
      · have : a = retries := by omega
        simp [hlt, this]

/-- Witness for claim C3: a constant-404 response stream makes the extractor
fail after one attempt for any budget (here 5), while the page crawler burns
its whole budget (here 2, hence 3 attempts). -/
theorem claim_C3_witness :
    fetch_and_extract 5 (fun _ => FetchOutcome.status 404) = FetchResult.fail 1 ∧
    fetch_page 2 (fun _ => FetchOutcome.status 418) = (false, 3) := by
  constructor
  · exact claim_C3.1 5 (fun _ => FetchOutcome.status 404) 404 rfl (by omega) (by decide)
  · exact claim_C3.2 2 (fun _ => FetchOutcome.status 418)
      (fun _ => ⟨418, rfl, by omega⟩)

/-- URL-and-body projection of the IMAGE lines with truthy URLs, in order. -/
def projImages (ls : List Line) : List (Str × Str) :=
  ls.filterMap (fun l =>
    match l.kind, l.url with
    | LineKind.IMAGE, some u => if u ≠ [] then some (u, l.body) else none
    | _, _ => none)

/-- URL-and-body projection of the LINK lines with truthy URLs, in order. -/
def projLinks (ls : List Line) : List (Str × Str) :=
  ls.filterMap (fun l =>
    match l.kind, l.url with
    | LineKind.LINK, some u => if u ≠ [] then some (u, l.body) else none
    | _, _ => none)

/-- Invariant maintained by `append_lines`: the summary lists are exactly the
projections of the content lines. -/
def ProjInv (st : ParseSt) : Prop :=
  st.image_many = projImages st.content_many ∧ st.link_many = projLinks st.content_many

theorem projImages_append (a b : List Line) :
    projImages (a ++ b) = projImages a ++ projImages b :=
  List.filterMap_append _ _ _

theorem projLinks_append (a b : List Line) :
    projLinks (a ++ b) = projLinks a ++ projLinks b :=
  List.filterMap_append _ _ _

theorem emitImage_inv (sf : Nat → Str) (img : Dom) (st : ParseSt) (h : ProjInv st) :
    ProjInv (emitImage sf img st) := by
  obtain ⟨h1, h2⟩ := h
  unfold emitImage
  constructor
  · show st.image_many ++ _ = projImages (st.content_many ++ _)
    rw [projImages_append, ← h1]
    cases hsrc : attrsGet img ("src").data with
    | none => simp [projImages]
    | some v =>
      by_cases hv : v = [] <;> simp [projImages, hv]
  · show st.link_many = projLinks (st.content_many ++ _)
    rw [projLinks_append, ← h2]
    cases attrsGet img ("src").data <;> simp [projLinks]

theorem emitLink_inv (n ln : Dom) (st : ParseSt) (h : ProjInv st) :
    ProjInv (emitLink n ln st) := by
  obtain ⟨h1, h2⟩ := h
  unfold emitLink
  constructor
  · show st.image_many = projImages (st.content_many ++ _)
    rw [projImages_append, ← h1]
    cases attrsGet ln ("href").data <;> simp [projImages]
  · show st.link_many ++ _ = projLinks (st.content_many ++ _)
    rw [projLinks_append, ← h2]
    cases hhref : attrsGet ln ("href").data with
    | none => simp [projLinks]
    | some v =>
      by_cases hv : v = [] <;> simp [projLinks, hv]

theorem emitText_inv (n : Dom) (st : ParseSt) (h : ProjInv st) :
    ProjInv (emitText n st) := by
  obtain ⟨h1, h2⟩ := h
  unfold emitText
  constructor
  · show st.image_many = projImages (st.content_many ++ _)
    rw [projImages_append, ← h1]; simp [projImages]
  · show st.link_many = projLinks (st.content_many ++ _)
    rw [projLinks_append, ← h2]; simp [projLinks]

theorem foldl_emitImage_inv (sf : Nat → Str) (imgs : List Dom) (st : ParseSt) (h : ProjInv st) :
    ProjInv (imgs.foldl (fun s i => emitImage sf i s) st) := by
  induction imgs generalizing st with
  | nil => exact h
  | cons i is' ih => exact ih _ (emitImage_inv sf i st h)

mutual

theorem appendLines_inv (sf : Nat → Str) (n : Dom) (st : ParseSt) (h : ProjInv st) :
    ProjInv (appendLines sf n st) := by
  cases n with
  | txt v =>
    unfold appendLines
    split
    · exact foldl_emitImage_inv sf _ st h
    · split
      · split
        · exact emitLink_inv _ _ st h
        · split
          · exact emitText_inv _ st h
          · exact h
      · split
        · exact emitText_inv _ st h
        · exact h
  | elem t a cs =>
    unfold appendLines
    split
    · exact foldl_emitImage_inv sf _ st h
    · split
      · split
        · exact emitLink_inv _ _ st h
        · split
          · exact emitText_inv _ st h
          · exact appendLinesList_inv sf cs st h
      · split
        · exact emitText_inv _ st h
        · exact appendLinesList_inv sf cs st h

theorem appendLinesList_inv (sf : Nat → Str) (l : List Dom) (st : ParseSt) (h : ProjInv st) :
    ProjInv (appendLinesList sf l st) := by
  match l with
  | [] => unfold appendLinesList; exact h
  | c :: cs =>
    unfold appendLinesList
    exact appendLinesList_inv sf cs _ (appendLines_inv sf c st h)

end

/-- Claim C4 (amended): the `link_many` and `image_many` lists produced by
`Post.parse_dom_node` (without the fallback chain, as every caller invokes it)
are the in-order projections of the emitted Link/Image content segments with
truthy URLs — but they are NOT de-duplicated by URL: the linearizer records
every occurrence, and only the fallback chain consults a de-duplication set. -/
theorem claim_C4 (sf : Nat → Str) (root : Dom) (meta : PostMetadata) :
    (parse_dom_node sf root none [] [] meta false).image_many =
      projImages ((parse_dom_node sf root none [] [] meta false).content_many) ∧
    (parse_dom_node sf root none [] [] meta false).link_many =
      projLinks ((parse_dom_node sf root none [] [] meta false).content_many) :=
  appendLinesList_inv sf (childrenOf root) ⟨[], [], [], 0⟩ ⟨rfl, rfl⟩

/-- Suffix stream used by the concrete linearizer examples (models the random
4-character suffix). -/
def cexSf : Nat → Str := fun _ => ("x").data

/-- Metadata value used by the concrete linearizer examples. -/
def cexMeta : PostMetadata := ⟨0, ⟨2025, 1, 1, 0, 0, 0, none⟩, ("u0").data, ("t0").data⟩

/-- An `<img src="u">` element reused by the concrete examples. -/
def c4Img : Dom := .elem ("img").data [(("src").data, ("u").data)] []

/-- Content root with the same image URL in two sibling subtrees. -/
def c4Root : Dom := .elem ("div").data []
  [.elem ("div").data [] [c4Img], .elem ("div").data [] [c4Img]]

/-- Counterexample to claim C4 as stated: a root with `<img src="u">` in two
sibling subtrees yields `image_many` containing the URL `u` twice —
`image_many` is not de-duplicated by URL. -/
theorem claim_C4_counterexample :
    ((parse_dom_node cexSf c4Root none [] [] cexMeta false).image_many.map Prod.fst) =
      [("u").data, ("u").data] ∧
    ¬ ((parse_dom_node cexSf c4Root none [] [] cexMeta false).image_many.map Prod.fst).Nodup := by
  decide

/-- Claim C7: when a subtree contains exactly one image element (in particular
one image nested inside one link), `append_lines` emits exactly one content
segment for that subtree, it is an Image segment, and no Link segment is
recorded — images win over links and the two are never both emitted. -/
theorem claim_C7 (sf : Nat → Str) (n : Dom) (st : ParseSt)
    (h : (cssTag ("img").data n).length = 1) :
    ∃ ln : Line, ln.kind = LineKind.IMAGE ∧
      (appendLines sf n st).content_many = st.content_many ++ [ln] ∧
      (appendLines sf n st).link_many = st.link_many := by
  obtain ⟨img, himg⟩ := List.length_eq_one.mp h
  cases n with
  | txt v =>
    unfold appendLines
    rw [himg]
    exact ⟨⟨LineKind.IMAGE, _, _⟩, rfl, rfl, rfl⟩
  | elem t a cs =>
    unfold appendLines
    rw [himg]
    exact ⟨⟨LineKind.IMAGE, _, _⟩, rfl, rfl, rfl⟩

/-- Subtree of the C7 witness: one image nested inside one link. -/
def c7Node : Dom := .elem ("div").data []
  [.elem ("a").data [(("href").data, ("h").data)]
    [.elem ("img").data [(("src").data, ("s.jpg").data)] []]]

/-- Witness for claim C7: the image-in-link subtree produces exactly one Image
segment and records no link. -/
theorem claim_C7_witness :
    ∃ ln : Line, ln.kind = LineKind.IMAGE ∧
      (appendLines cexSf c7Node ⟨[], [], [], 0⟩).content_many = [] ++ [ln] ∧
      (appendLines cexSf c7Node ⟨[], [], [], 0⟩).link_many = [] :=
  claim_C7 cexSf c7Node ⟨[], [], [], 0⟩ (by decide)

/-- Behavior shared by all four fallback stage steps: either the step keeps the
pair unchanged, or it adds one image whose URL is not yet in the seen set. -/
def FbStepOk {α : Type} (step : ParseSt × List Str → α → ParseSt × List Str) : Prop :=
  ∀ p x, step p x = p ∨ ∃ s b, s ∉ p.2 ∧ step p x = fbAddImage s b p

/-- The chain relation between fallback states: the later state appends a batch
of images whose URLs are pairwise distinct and all fresh for the earlier seen
set, and records exactly those URLs as newly seen. -/
def FbExtends (p q : ParseSt × List Str) : Prop :=
  ∃ added : List (Str × Str),
    q.1.image_many = p.1.image_many ++ added ∧
    q.2 = p.2 ++ added.map Prod.fst ∧
    (added.map Prod.fst).Nodup ∧
    ∀ u ∈ added.map Prod.fst, u ∉ p.2

theorem fbExtends_refl (p : ParseSt × List Str) : FbExtends p p :=
  ⟨[], by simp, by simp, List.nodup_nil, by simp⟩

theorem fbExtends_trans {p q r : ParseSt × List Str}
    (h1 : FbExtends p q) (h2 : FbExtends q r) : FbExtends p r := by
  obtain ⟨a1, hi1, hs1, hn1, hf1⟩ := h1
  obtain ⟨a2, hi2, hs2, hn2, hf2⟩ := h2
  refine ⟨a1 ++ a2, ?_, ?_, ?_, ?_⟩
  · rw [hi2, hi1, List.append_assoc]
  · rw [hs2, hs1, List.map_append, List.append_assoc]
  · rw [List.map_append, List.nodup_append]
    refine ⟨hn1, hn2, fun u hu1 hu2 => ?_⟩
    have := hf2 u hu2
    rw [hs1] at this
    exact this (List.mem_append.mpr (Or.inr hu1))
  · intro u hu
    rw [List.map_append] at hu
    rcases List.mem_append.mp hu with hu | hu
    · exact hf1 u hu
    · have := hf2 u hu
      rw [hs1] at this
      exact fun hin => this (List.mem_append.mpr (Or.inl hin))

theorem fbAddImage_extends {p : ParseSt × List Str} {s : Str} {b : Str}
    (hs : s ∉ p.2) : FbExtends p (fbAddImage s b p) := by
  refine ⟨[(s, b)], rfl, rfl, by simp, by simpa using hs⟩

theorem fb_foldl_extends {α : Type} {step : ParseSt × List Str → α → ParseSt × List Str}
    (hstep : FbStepOk step) (items : List α) (p : ParseSt × List Str) :
    FbExtends p (items.foldl step p) := by
  induction items generalizing p with
  | nil => exact fbExtends_refl p
  | cons x xs ih =>
    rw [List.foldl_cons]
    rcases hstep p x with heq | ⟨s, b, hs, heq⟩
    · rw [heq]; exact ih p
    · rw [heq]
      exact fbExtends_trans (fbAddImage_extends hs) (ih _)

theorem fbStage1Step_ok : FbStepOk fbStage1Step := by
  intro p img
  unfold fbStage1Step
  cases hsrc : attrsGet img ("src").data with
  | none => exact Or.inl rfl
  | some src =>
    dsimp only
    by_cases hc : src = [] ∨ src ∈ p.2
    · rw [if_pos hc]; exact Or.inl rfl
    · rw [if_neg hc]
      exact Or.inr ⟨src, _, fun hin => hc (Or.inr hin), rfl⟩

theorem fbStage2Step_ok : FbStepOk fbStage2Step := by
  intro p img
  unfold fbStage2Step
  cases hsrc : attrsGet img ("src").data with
  | none => exact Or.inl rfl
  | some src =>
    dsimp only
    by_cases hc : src = [] ∨ src ∈ p.2
    · rw [if_pos hc]; exact Or.inl rfl
    · rw [if_neg hc]
      by_cases hh : ¬ pyIn (("pimg.tw/workatravel").data) src
      · rw [if_pos hh]; exact Or.inl rfl
      · rw [if_neg hh]
        exact Or.inr ⟨src, _, fun hin => hc (Or.inr hin), rfl⟩

theorem fbStage3Step_ok : FbStepOk fbStage3Step := by
  intro p t
  unfold fbStage3Step
  cases hsrc : t.src with
  | none => exact Or.inl rfl
  | some src =>
    dsimp only
    by_cases hc : src ∈ p.2
    · rw [if_pos hc]; exact Or.inl rfl
    · rw [if_neg hc]
      exact Or.inr ⟨src, _, hc, rfl⟩

theorem fbStage4Step_ok : FbStepOk fbStage4Step := by
  intro p t
  unfold fbStage4Step
  cases hsrc : t.src with
  | none => exact Or.inl rfl
  | some src =>
    dsimp only
    by_cases hc : src ∈ p.2 ∨ ¬ pyIn (("pimg.tw/workatravel").data) src
    · rw [if_pos hc]; exact Or.inl rfl
    · rw [if_neg hc]
      exact Or.inr ⟨src, _, fun hin => hc (Or.inl hin), rfl⟩

/-- A single fallback stage extends the state by a batch of fresh, pairwise
distinct image URLs. -/
theorem fbStage1_extends (root : Dom) (p : ParseSt × List Str) :
    FbExtends p (fbStage1 root p) :=
  fb_foldl_extends fbStage1Step_ok _ _

theorem fbStage2_extends (doc : Option Dom) (p : ParseSt × List Str) :
    FbExtends p (fbStage2 doc p) := by
  cases doc with
  | none => exact fbExtends_refl p
  | some d => exact fb_foldl_extends fbStage2Step_ok _ _

theorem fbStage3_extends (rootTags : List ImgTag) (p : ParseSt × List Str) :
    FbExtends p (fbStage3 rootTags p) := by
  unfold fbStage3
  split
  · exact fb_foldl_extends fbStage3Step_ok _ _
  · exact fbExtends_refl p

theorem fbStage4_extends (doc : Option Dom) (docTags : List ImgTag)
    (p : ParseSt × List Str) : FbExtends p (fbStage4 doc docTags p) := by
  cases doc with
  | none => exact fbExtends_refl p
  | some d =>
    unfold fbStage4
    dsimp only
    split
    · exact fb_foldl_extends fbStage4Step_ok _ _
    · exact fbExtends_refl p

/-- Claim C5 (amended): whenever `_apply_fallback_strategies` runs (it runs for
every `enable_fallback=True` call, regardless of how many images the linearizer
found, and stages 3-4 are additionally gated on `image_many` still being
empty), all stages feed one shared de-duplication set seeded with the truthy
URLs already in `image_many`: the chain appends a batch of images whose URLs
are pairwise distinct and none of which was already found. -/
theorem claim_C5 (root : Dom) (doc : Option Dom) (rootTags docTags : List ImgTag)
    (st : ParseSt) :
    ∃ added : List (Str × Str),
      (apply_fallback_strategies root doc rootTags docTags st).image_many =
        st.image_many ++ added ∧
      (added.map Prod.fst).Nodup ∧
      ∀ u ∈ added.map Prod.fst,
        u ∉ (st.image_many.map Prod.fst).filter (fun v => v ≠ []) := by
  have hall : FbExtends (st, (st.image_many.map Prod.fst).filter (fun u => u ≠ []))
      (fbStage4 doc docTags (fbStage3 rootTags (fbStage2 doc (fbStage1 root
        (st, (st.image_many.map Prod.fst).filter (fun u => u ≠ [])))))) :=
    fbExtends_trans (fbStage1_extends _ _)
      (fbExtends_trans (fbStage2_extends _ _)
        (fbExtends_trans (fbStage3_extends _ _) (fbStage4_extends _ _ _)))
  obtain ⟨added, hi, _, hn, hf⟩ := hall
  exact ⟨added, hi, hn, hf⟩

/-- Content root of the C5 counterexample: the linearizer finds one image. -/
def c5Root : Dom := .elem ("div").data [] [.elem ("div").data [] [c4Img]]

/-- Whole document of the C5 counterexample: it carries an extra asset-host
image outside the content root. -/
def c5Doc : Dom := .elem ("body").data []
  [c5Root, .elem ("img").data [(("src").data, ("pimg.tw/workatravel/x.jpg").data)] []]

/-- Counterexample to claim C5 as stated: the linearizer yields one image
(non-zero), yet with `enable_fallback=True` the chain still runs and its
stage 2 adds a further document image — the chain is not invoked only when the
linearizer yields zero images, and stage 2 runs although images were already
found. -/
theorem claim_C5_counterexample :
    ((parse_dom_node cexSf c5Root (some c5Doc) [] [] cexMeta false).image_many.map Prod.fst =
      [("u").data]) ∧
    ((parse_dom_node cexSf c5Root (some c5Doc) [] [] cexMeta true).image_many.map Prod.fst =
      [("u").data, ("pimg.tw/workatravel/x.jpg").data]) := by
  decide

/-- Witness for claim C5: the batch added by the chain on the counterexample
document is duplicate-free and fresh with respect to the already-found URLs. -/
theorem claim_C5_witness :
    ∃ added : List (Str × Str),
      (apply_fallback_strategies c5Root (some c5Doc) [] []
          ⟨[], [], [(("u").data, ("nb").data)], 0⟩).image_many =
        [(("u").data, ("nb").data)] ++ added ∧
      (added.map Prod.fst).Nodup ∧
      ∀ u ∈ added.map Prod.fst,
        u ∉ (([(("u").data, ("nb").data)] : List (Str × Str)).map Prod.fst).filter
          (fun v => v ≠ []) :=
  claim_C5 c5Root (some c5Doc) [] [] ⟨[], [], [(("u").data, ("nb").data)], 0⟩

/-- Node carrying `id="target"` in the C6 example document. -/
def c6Target : Dom := .elem ("div").data [(("id").data, ("target").data)] [.txt ("hello").data]

/-- Example document of the C6 theorems. -/
def c6Tree : Dom := .elem ("html").data [] [.elem ("body").data [] [c6Target]]

/-- Counterexample to claim C6 as stated: with the declared candidate selector
list `["s1", "#target"]` — whose second selector matches a node of the
document — `_parse_post` does not fall back to the matching candidate: it
passes the whole list to `css_first`, which raises `TypeError`, so the post is
lost although a candidate matches. -/
theorem claim_C6_counterexample :
    parse_post (fun _ => Dom.txt []) cexSf c6Tree
        (PyVal.lst [("s1").data, ("#target").data]) cexMeta =
      Except.error PErr.typeErr ∧
    (cssFirstSel ("#target").data c6Tree).isSome = true := by
  constructor
  · rfl
  · decide

/-- Claim C6 (amended): the content root is the first node matching the single
configured selector string — the candidate list declared in
`PostCrawlerSelectors` is never iterated.  When that selector matches nothing,
the post is a terminal per-URL failure (`None`) excluded from the crawl output,
and the rest of the batch is processed unchanged. -/
theorem claim_C6 :
    (∀ (hydParse : Str → Dom) (sf : Nat → Str) (sel : Str) (tree : Dom)
      (meta : PostMetadata), cssFirstSel sel tree = none →
      parse_post hydParse sf tree (PyVal.s sel) meta = Except.ok none) ∧
    (∀ (hydParse : Str → Dom) (sf : Nat → Str) (sel : Str) (tree : Dom)
      (meta : PostMetadata) (items : List (Dom × PostMetadata)),
      cssFirstSel sel tree = none →
      post_crawl hydParse sf ((tree, meta) :: items) (PyVal.s sel) =
        post_crawl hydParse sf items (PyVal.s sel)) := by
  have hparse : ∀ (hydParse : Str → Dom) (sf : Nat → Str) (sel : Str) (tree : Dom)
      (meta : PostMetadata), cssFirstSel sel tree = none →
      parse_post hydParse sf tree (PyVal.s sel) meta = Except.ok none := by
    intro hydParse sf sel tree meta h
    unfold parse_post cssFirstVal
    dsimp only
    rw [h]
  refine ⟨hparse, ?_⟩
  intro hydParse sf sel tree meta items h
  unfold post_crawl
  rw [List.map_cons, List.filterMap_cons]
  have : fetch_post_result hydParse sf (tree, meta) (PyVal.s sel) = none := by
    unfold fetch_post_result
    rw [hparse hydParse sf sel tree meta h]
  rw [this]
  rfl

/-- Witness for claim C6: a selector matching nothing in the example document
gives a `None` parse, and the one-item batch crawls to the empty output. -/
theorem claim_C6_witness :
    parse_post (fun _ => Dom.txt []) cexSf c6Tree (PyVal.s ("#absent").data) cexMeta =
      Except.ok none ∧
    post_crawl (fun _ => Dom.txt []) cexSf [(c6Tree, cexMeta)] (PyVal.s ("#absent").data) =
      post_crawl (fun _ => Dom.txt []) cexSf [] (PyVal.s ("#absent").data) := by
  constructor
  · exact claim_C6.1 (fun _ => Dom.txt []) cexSf (("#absent").data) c6Tree cexMeta rfl
  · exact claim_C6.2 (fun _ => Dom.txt []) cexSf (("#absent").data) c6Tree cexMeta [] rfl

theorem mkValid_sound {y mo d hh mi ss : Nat} {tz : Option Int} {dt : PyDateTime}
    (h : mkValid y mo d hh mi ss tz = some dt) : dt.valid = true := by
  unfold mkValid at h
  split at h
  · injection h with h'
    subst h'
    assumption
  · cases h

theorem p2or1_some {s : Str} {k : Nat → Str → Option PyDateTime} {dt : PyDateTime}
    (h : p2or1 s k = some dt) : ∃ v r, k v r = some dt := by
  unfold p2or1 at h
  cases h2 : takeExact 2 s with
  | some p =>
    obtain ⟨v, r⟩ := p
    rw [h2] at h
    try dsimp only at h
    cases hk : k v r with
    | some d =>
      rw [hk, Option.some_orElse] at h
      injection h with h'
      subst h'
      exact ⟨v, r, hk⟩
    | none =>
      rw [hk, Option.none_orElse] at h
      cases h1 : takeExact 1 s with
      | some q =>
        obtain ⟨v1, r1⟩ := q
        rw [h1] at h
        exact ⟨v1, r1, h⟩
      | none => rw [h1] at h; cases h
  | none =>
    rw [h2] at h
    try dsimp only at h
    rw [Option.none_orElse] at h
    cases h1 : takeExact 1 s with
    | some q =>
      obtain ⟨v1, r1⟩ := q
      rw [h1] at h
      exact ⟨v1, r1, h⟩
    | none => rw [h1] at h; cases h

theorem pyFromIso_sound {s : Str} {dt : PyDateTime}
    (h : pyFromIso s = some dt) : dt.valid = true := by
  unfold pyFromIso at h
  cases e4 : takeExact 4 s with
  | none => rw [e4] at h; cases h
  | some p =>
    obtain ⟨y, r0⟩ := p
    rw [e4] at h; try dsimp only at h
    cases e5 : expectChar '-' r0 with
    | none => rw [e5] at h; cases h
    | some r1 =>
      rw [e5] at h; try dsimp only at h
      cases e6 : takeExact 2 r1 with
      | none => rw [e6] at h; cases h
      | some p2 =>
        obtain ⟨mo, r2⟩ := p2
        rw [e6] at h; try dsimp only at h
        cases e7 : expectChar '-' r2 with
        | none => rw [e7] at h; cases h
        | some r3 =>
          rw [e7] at h; try dsimp only at h
          cases e8 : takeExact 2 r3 with
          | none => rw [e8] at h; cases h
          | some p3 =>
            obtain ⟨d, r5⟩ := p3
            rw [e8] at h; try dsimp only at h
            cases r5 with
            | nil => exact mkValid_sound h
            | cons sep r6 =>
              try dsimp only at h
              cases e9 : splitAtTz r6 with
              | mk tp tzo =>
                rw [e9] at h; try dsimp only at h
                cases tzo with
                | none =>
                  try dsimp only at h
                  cases e10 : parseHMS tp with
                  | none => rw [e10] at h; cases h
                  | some tri =>
                    obtain ⟨hh, mi, ss⟩ := tri
                    rw [e10] at h; try dsimp only at h
                    exact mkValid_sound h
                | some cts =>
                  obtain ⟨cch, ts⟩ := cts
                  try dsimp only at h
                  cases e10 : parseHMS tp with
                  | none => rw [e10] at h; try dsimp only at h; cases h
                  | some tri =>
                    obtain ⟨hh, mi, ss⟩ := tri
                    rw [e10] at h; try dsimp only at h
                    cases e11 : parseTzMin cch ts with
                    | none => rw [e11] at h; cases h
                    | some off =>
                      rw [e11] at h; try dsimp only at h
                      exact mkValid_sound h

theorem strptimeYmdHMS_sound {s : Str} {dt : PyDateTime}
    (h : strptimeYmdHMS s = some dt) : dt.valid = true := by
  unfold strptimeYmdHMS at h
  cases e4 : takeExact 4 s with
  | none => rw [e4] at h; cases h
  | some p =>
    obtain ⟨y, r0⟩ := p
    rw [e4] at h; try dsimp only at h
    cases e5 : expectChar '-' r0 with
    | none => rw [e5] at h; cases h
    | some r1 =>
      rw [e5] at h; try dsimp only at h
      obtain ⟨mo, r2, h⟩ := p2or1_some h
      try dsimp only at h
      cases e6 : expectChar '-' r2 with
      | none => rw [e6] at h; cases h
      | some r3 =>
        rw [e6] at h; try dsimp only at h
        obtain ⟨d, r4, h⟩ := p2or1_some h
        try dsimp only at h
        cases e7 : expectChar ' ' r4 with
        | none => rw [e7] at h; cases h
        | some r5 =>
          rw [e7] at h; try dsimp only at h
          obtain ⟨hh, r6, h⟩ := p2or1_some h
          try dsimp only at h
          cases e8 : expectChar ':' r6 with
          | none => rw [e8] at h; cases h
          | some r7 =>
            rw [e8] at h; try dsimp only at h
            obtain ⟨mi, r8, h⟩ := p2or1_some h
            try dsimp only at h
            cases e9 : expectChar ':' r8 with
            | none => rw [e9] at h; cases h
            | some r9 =>
              rw [e9] at h; try dsimp only at h
              obtain ⟨ss, r10, h⟩ := p2or1_some h
              try dsimp only at h
              cases r10 with
              | nil => exact mkValid_sound h
              | cons x xs => cases h

theorem strptimeYmd_sound {s : Str} {dt : PyDateTime}
    (h : strptimeYmd s = some dt) : dt.valid = true := by
  unfold strptimeYmd at h
  cases e4 : takeExact 4 s with
  | none => rw [e4] at h; cases h
  | some p =>
    obtain ⟨y, r0⟩ := p
    rw [e4] at h; try dsimp only at h
    cases e5 : expectChar '-' r0 with
    | none => rw [e5] at h; cases h
    | some r1 =>
      rw [e5] at h; try dsimp only at h
      obtain ⟨mo, r2, h⟩ := p2or1_some h
      try dsimp only at h
      cases e6 : expectChar '-' r2 with
      | none => rw [e6] at h; cases h
      | some r3 =>
        rw [e6] at h; try dsimp only at h
        obtain ⟨d, r4, h⟩ := p2or1_some h
        try dsimp only at h
        cases r4 with
        | nil => exact mkValid_sound h
        | cons x xs => cases h

/-- Claim C8: the Chinese-format timestamp `12月06週六202517:12` parses to the
civil moment 2025-12-06T17:12 in the fixed UTC+8 zone (offset 480 minutes);
the concrete invalid-day string `12月32週六202517:12` yields `None`; and no
parse of any input ever produces an invalid civil date — every stage validates
its numeric fields and converts a failure to `None` instead of raising. -/
theorem claim_C8 :
    extract_datetime_str (("12月06週六202517:12").data) =
      some ⟨2025, 12, 6, 17, 12, 0, some 480⟩ ∧
    extract_datetime_str (("12月32週六202517:12").data) = none ∧
    (∀ s dt, extract_datetime_str s = some dt → dt.valid = true) := by
  refine ⟨by decide, by decide, ?_⟩
  intro s dt h
  unfold extract_datetime_str at h
  split at h
  · injection h with h'; subst h'
    exact pyFromIso_sound (by assumption)
  · split at h
    · injection h with h'; subst h'
      exact strptimeYmdHMS_sound (by assumption)
    · split at h
      · injection h with h'; subst h'
        exact strptimeYmd_sound (by assumption)
      · split at h
        · exact mkValid_sound h
        · cases h

/-- Witness for claim C8: the ISO date `2025-12-06` parses, and the parsed
value is a valid civil date by the soundness conjunct. -/
theorem claim_C8_witness :
    PyDateTime.valid ⟨2025, 12, 6, 0, 0, 0, none⟩ = true :=
  claim_C8.2.2 (("2025-12-06").data) ⟨2025, 12, 6, 0, 0, 0, none⟩ (by decide)

theorem foldlMax_spec (xs : List Str) (b : Str) :
    (xs.foldl (fun best f => if best.length < f.length then f else best) b = b ∨
      xs.foldl (fun best f => if best.length < f.length then f else best) b ∈ xs) ∧
    b.length ≤ (xs.foldl (fun best f => if best.length < f.length then f else best) b).length ∧
    ∀ f ∈ xs, f.length ≤ (xs.foldl (fun best f => if best.length < f.length then f else best) b).length := by
  induction xs generalizing b with
  | nil => exact ⟨Or.inl rfl, le_refl _, by simp⟩
  | cons x xs ih =>
    rw [List.foldl_cons]
    by_cases hx : b.length < x.length
    · rw [if_pos hx]
      obtain ⟨hmem, hle, hmax⟩ := ih x
      refine ⟨Or.inr ?_, le_trans (le_of_lt hx) hle, ?_⟩
      · rcases hmem with he | hm
        · rw [he]; exact List.mem_cons_self _ _
        · exact List.mem_cons_of_mem _ hm
      · intro f hf
        rcases List.mem_cons.mp hf with he | hm
        · rw [he]; exact hle
        · exact hmax f hm
    · rw [if_neg hx]
      obtain ⟨hmem, hle, hmax⟩ := ih b
      refine ⟨?_, hle, ?_⟩
      · rcases hmem with he | hm
        · exact Or.inl he
        · exact Or.inr (List.mem_cons_of_mem _ hm)
      · intro f hf
        rcases List.mem_cons.mp hf with he | hm
        · rw [he]; exact le_trans (le_of_not_lt hx) hle
        · exact hmax f hm

theorem pyMaxByLen_mem (l : List Str) (h : l ≠ []) : pyMaxByLen l ∈ l := by
  cases l with
  | nil => exact absurd rfl h
  | cons x xs =>
    unfold pyMaxByLen
    dsimp only
    rcases (foldlMax_spec xs x).1 with he | hm
    · rw [he]; exact List.mem_cons_self _ _
    · exact List.mem_cons_of_mem _ hm

theorem pyMaxByLen_max (l : List Str) : ∀ f ∈ l, f.length ≤ (pyMaxByLen l).length := by
  cases l with
  | nil => simp
  | cons x xs =>
    unfold pyMaxByLen
    dsimp only
    intro f hf
    obtain ⟨_, hle, hmax⟩ := foldlMax_spec xs x
    rcases List.mem_cons.mp hf with he | hm
    · rw [he]; exact hle
    · exact hmax f hm

/-- Claim C9: whenever `_extract_hydrated_content` returns a fragment, that
fragment is one of the HTML-like hydration candidates and no candidate is
longer — the longest fragment (by character length, first of equals) is
selected as the substituted content source. -/
theorem claim_C9 (tree : Dom) (c : Str)
    (h : extract_hydrated_content tree = some c) :
    c ∈ (hydFragments tree).filter htmlLike ∧
    ∀ f ∈ (hydFragments tree).filter htmlLike, f.length ≤ c.length := by
  unfold extract_hydrated_content at h
  try dsimp only at h
  split_ifs at h with h1 h2
  injection h with h'
  subst h'
  exact ⟨pyMaxByLen_mem _ h2, pyMaxByLen_max _⟩

/-- First hydration script of the C9 witness (shorter payload). -/
def c9Script1 : Dom :=
  .elem ("script").data [] [.txt ("self.__next_f.push([1,\"<p>a</p>\"])").data]

/-- Second hydration script of the C9 witness (longer payload). -/
def c9Script2 : Dom :=
  .elem ("script").data [] [.txt ("self.__next_f.push([1,\"<p>abc</p>\"])").data]

/-- Document of the C9 witness. -/
def c9Tree : Dom := .elem ("html").data [] [c9Script1, c9Script2]

/-- Witness for claim C9: on a document with two hydration fragments the longer
one, `<p>abc</p>`, is the selected fragment and dominates all candidates. -/
theorem claim_C9_witness :
    ("<p>abc</p>").data ∈ (hydFragments c9Tree).filter htmlLike ∧
    ∀ f ∈ (hydFragments c9Tree).filter htmlLike, f.length ≤ (("<p>abc</p>").data).length :=
  claim_C9 c9Tree (("<p>abc</p>").data) (by decide)

/-- Witness for claim C1: on the two-post example the index list of the
reindexed output is the countdown `[2, 1]`. -/
theorem claim_C1_witness :
    (sort_and_reindex [c1PostOld, c1PostNew]).map (·.idx) = countdown 2 :=
  (claim_C1 [c1PostOld, c1PostNew]).2.1

/-- Witness for claim C2: the reload of the serialized example metadata fails. -/
theorem claim_C2_witness :
    (read_metadata_line (write_jsonl_line cexMeta)).isOk = false :=
  claim_C2 cexMeta

/-- Witness for claim C4: on the duplicate-image example the summary lists are
the projections of the content lines. -/
theorem claim_C4_witness :
    (parse_dom_node cexSf c4Root none [] [] cexMeta false).image_many =
      projImages ((parse_dom_node cexSf c4Root none [] [] cexMeta false).content_many) ∧
    (parse_dom_node cexSf c4Root none [] [] cexMeta false).link_many =
      projLinks ((parse_dom_node cexSf c4Root none [] [] cexMeta false).content_many) :=
  claim_C4 cexSf c4Root cexMeta
